import Mathlib

/-!
Verification development for the serial_com deployment core of the ToolBox
repository: a shallow embedding of `Scripts/serial_com/uploader.py` (the
controller) and `Scripts/serial_com/receiver.py` (the agent), together with
theorems settling the specification claims about them.

External collaborators (the pyserial transport, the SHA-256 primitive, the
JSON parser, tarfile compression internals) are modelled abstractly, exactly
as the specification declares them external: the transport is a stream of
delivered chunks, the hash is an arbitrary function to hex strings, the JSON
parser an arbitrary partial function to configuration records.
-/

/-- Python whitespace characters, as used by `str.split()` with no separator. -/
def pyIsSpace (c : Char) : Bool :=
  c == ' ' || c == '\t' || c == '\n' || c == '\r' || c == '\x0b' || c == '\x0c'

/-- Python `str.split(maxsplit=ms)` on runs of whitespace, over character lists.
Leading whitespace is dropped; once `ms` splits have been made the remainder
(with leading whitespace stripped) is returned whole; a whitespace-only
remainder produces no element. -/
def pySplitAux : Nat → List Char → List (List Char)
  | ms, s =>
    let s1 := s.dropWhile pyIsSpace
    if s1.isEmpty then []
    else
      match ms with
      | 0 => [s1]
      | ms' + 1 =>
        let tok := s1.takeWhile (fun c => !(pyIsSpace c))
        let rest := s1.dropWhile (fun c => !(pyIsSpace c))
        tok :: pySplitAux ms' rest

/-- Python `header.split(maxsplit=ms)` on strings. -/
def pySplitStr (ms : Nat) (s : String) : List String :=
  (pySplitAux ms s.toList).map String.mk

/-- Whether the character list `s` has `p` as an initial segment. -/
def strStarts : List Char → List Char → Bool
  | [], _ => true
  | _ :: _, [] => false
  | a :: p, b :: s => a == b && strStarts p s

/-- Python `s.startswith(p)`. -/
def pyStartsWith (s p : String) : Bool :=
  strStarts p.toList s.toList

/-- Digit-run parser after the first position: a single underscore may appear
between two digits (PEP 515 grouping, as accepted by Python `int()`), never
doubled, leading or trailing. -/
def pyDigitsAux : List Char → Nat → Option Nat
  | [], acc => some acc
  | ['_'], _ => none
  | '_' :: c :: rest, acc =>
    if c.isDigit then pyDigitsAux rest (acc * 10 + (c.toNat - 48)) else none
  | c :: rest, acc =>
    if c.isDigit then pyDigitsAux rest (acc * 10 + (c.toNat - 48)) else none

/-- Decimal digit run to a natural number, with PEP 515 underscore grouping;
`none` unless nonempty, starting with a digit, and every underscore sits
between two digits. -/
def digitsToNat (ds : List Char) : Option Nat :=
  match ds with
  | [] => none
  | '_' :: _ => none
  | _ => pyDigitsAux ds 0

/-- Python `int(s)` on ASCII decimal strings: surrounding whitespace stripped,
one optional sign, then decimal digits with optional PEP 515 underscore
grouping (`int("1_0") == 10`); anything else raises, modelled as `none`.
Wherever `pyInt` returns `some`, Python `int()` returns the same value; the
converse holds on printable-ASCII tokens — non-ASCII decimal digits and
exotic Unicode whitespace, which `int()` also accepts, are outside the model
and are excluded by hypothesis where a theorem relies on the `none` case. -/
def pyInt (s : String) : Option Int :=
  let t := ((s.toList.dropWhile pyIsSpace).reverse.dropWhile pyIsSpace).reverse
  match t with
  | '+' :: ds => (digitsToNat ds).map Int.ofNat
  | '-' :: ds => (digitsToNat ds).map (fun n => -(n : Int))
  | ds => (digitsToNat ds).map Int.ofNat

/-- Shell-glob matching as performed by Python's `fnmatch.fnmatch` on POSIX
(case-preserving, whole-string, `*` and `?` matching across `/`). This models
the external stdlib matcher for the pattern constructs the configuration
language uses: `*` matches any (possibly empty) character sequence, `?` any
single character, and every other character matches itself; `**` therefore
degenerates to `*`, exactly as in `fnmatch`. -/
def globMatch : List Char → List Char → Bool
  | [], s => s.isEmpty
  | '*' :: ps, s => s.tails.any (fun t => globMatch ps t)
  | '?' :: ps, s =>
    match s with
    | [] => false
    | _ :: s' => globMatch ps s'
  | p :: ps, s =>
    match s with
    | [] => false
    | c :: s' => p == c && globMatch ps s'

/-- `fnmatch.fnmatch(name, pat)` on strings. -/
def fnmatch (name pat : String) : Bool :=
  globMatch pat.toList name.toList

/-- Shared configuration record (the JSON descriptor of both sides): fields
that the Python code reads with `.get`/`setdefault` are `Option`-valued. -/
structure ConfigR where
  directory : Option String := none
  main : Option String := none
  args : Option (List String) := none
  includePatterns : Option (List String) := none
  excludePatterns : Option (List String) := none
deriving DecidableEq, Repr

/-- `should_exclude` from uploader.py: the path matches some exclude glob. -/
def should_exclude (relPosix : String) (excludePatterns : List String) : Bool :=
  excludePatterns.any (fun pat => fnmatch relPosix pat)

/-- `should_include` from uploader.py: the path matches some include glob. -/
def should_include (relPosix : String) (includePatterns : List String) : Bool :=
  includePatterns.any (fun pat => fnmatch relPosix pat)

/-- `make_archive` from uploader.py, over the walked source tree given as the
list of POSIX relative paths of its files: `config.json` is added outside the
filters, every other file is added iff it matches an include pattern and no
exclude pattern. The archive is modelled by the list of member paths. -/
def make_archive (tree : List String) (config : ConfigR) : List String :=
  let includePatterns := config.includePatterns.getD ["**"]
  let excludePatterns := config.excludePatterns.getD []
  tree.filter (fun rel =>
    rel == "config.json" ||
    (should_include rel includePatterns && !should_exclude rel excludePatterns))

/-- `MAX_RETRIES` from uploader.py. -/
def MAX_RETRIES : Nat := 5

/-- `RETRY_BASE_DELAY` from uploader.py (seconds). -/
def RETRY_BASE_DELAY : Rat := 1

/-- The retry loop of `send_with_retries` from uploader.py. `outcomes k` is
whether attempt number `k` (1-based) succeeds; `k` is the next attempt number
and the second argument the remaining attempt budget. Returns the overall
result, the number of attempts made, and the list of backoff delays slept
after each failed attempt, in order. -/
def retryAux (outcomes : Nat → Bool) : Nat → Nat → Bool × Nat × List Rat
  | _, 0 => (false, 0, [])
  | k, r + 1 =>
    if outcomes k then (true, 1, [])
    else
      let res := retryAux outcomes (k + 1) r
      (res.1, res.2.1 + 1, RETRY_BASE_DELAY * 2 ^ (k - 1) :: res.2.2)

/-- `send_with_retries` from uploader.py, abstracted over attempt outcomes. -/
def send_with_retries (outcomes : Nat → Bool) : Bool × Nat × List Rat :=
  retryAux outcomes 1 MAX_RETRIES

/-- Controller acknowledgement outcome (uploader.py ack waits). -/
inductive AckOutcome
  | acked
  | errored (tok : String)
  | timedOut
deriving DecidableEq, Repr

/-- One iteration of the `OK_CONFIG`/`OK` wait loops in `send_once`
(uploader.py): a received line equal to the expected token acknowledges, a
line starting with `ERR` fails the attempt with that token, otherwise the
loop falls through to the 10-second budget check `time.time() - t0 > 10`. -/
def ackStep (expected : String) (budgetEnd : Nat) (lineOpt : Option String) (now : Nat) :
    Option AckOutcome :=
  match lineOpt with
  | some resp =>
    if resp == expected then some .acked
    else if pyStartsWith resp "ERR" then some (.errored resp)
    else if budgetEnd < now then some .timedOut else none
  | none => if budgetEnd < now then some .timedOut else none

/-- The `OK_CONFIG`/`OK` wait loop of `send_once`, run for `k` iterations:
`reads i` is the (decoded, stripped) line obtained by the `i`-th `readline`,
`clock i` the value of `time.time()` at the `i`-th budget check, `t0` the
loop entry time. Returns the first resolution, if any occurred. -/
def waitAckRun (expected : String) (reads : Nat → Option String) (clock : Nat → Nat)
    (t0 : Nat) : Nat → Option AckOutcome
  | 0 => none
  | k + 1 =>
    match waitAckRun expected reads clock t0 k with
    | some o => some o
    | none => ackStep expected (t0 + 10) (reads k) (clock k)

/-- Final result awaited by `send_once` after streaming the payload bytes. -/
inductive ResultOutcome
  | done
  | checksum (tok : String)
deriving DecidableEq, Repr

/-- One iteration of the post-payload wait loop of `send_once` (uploader.py):
only a `DONE` line or a line starting with `ERR_CHECKSUM` resolves it; an
empty read sleeps and continues, and every other line (e.g. `PROGRESS`) is
logged and skipped. The loop performs no budget check. -/
def resultStep (lineOpt : Option String) : Option ResultOutcome :=
  match lineOpt with
  | some resp =>
    if resp == "DONE" then some .done
    else if pyStartsWith resp "ERR_CHECKSUM" then some (.checksum resp)
    else none
  | none => none

/-- The post-payload wait loop of `send_once`, run for `k` iterations. -/
def awaitResultRun (reads : Nat → Option String) : Nat → Option ResultOutcome
  | 0 => none
  | k + 1 =>
    match awaitResultRun reads k with
    | some o => some o
    | none => resultStep (reads k)

/-- Cumulative bytes held by `recv_n` (receiver.py) after `k` loop iterations:
each iteration asks the transport for the `n - got` missing bytes, receives
`stream k` of them (an empty answer just sleeps 10 ms), and the loop exits
only once `n` bytes are held — there is no timeout branch in the source. -/
def recv_n_got (stream : Nat → Nat) (n : Nat) : Nat → Nat
  | 0 => 0
  | k + 1 =>
    let got := recv_n_got stream n k
    if n ≤ got then got
    else got + min (stream k) (n - got)

/-- Cumulative bytes held by `read_exact` (receiver.py) after `k` iterations:
identical polling loop, but each read asks for at most
`min(16384, n - got)` bytes. -/
def read_exact_got (stream : Nat → Nat) (n : Nat) : Nat → Nat
  | 0 => 0
  | k + 1 =>
    let got := read_exact_got stream n k
    if n ≤ got then got
    else got + min (stream k) (min 16384 (n - got))

/-- `PROGRESS_INTERVAL` from receiver.py. -/
def PROGRESS_INTERVAL : Nat := 65536

/-- `DEFAULT_APP_DIR` from receiver.py, with `~` expanded for the pi user. -/
def DEFAULT_APP_DIR : String := "/home/pi/app"

/-- `ARCHIVE_PATH` from receiver.py: the staging archive file. -/
def ARCHIVE_PATH : String := DEFAULT_APP_DIR ++ "/__upload__.tar.gz"

/-- Observable effects of the agent: wire writes, log lines (receiver.py's
`log` prints and appends the application log file, the observability channel
the spec mandates for every command and error), and deployment filesystem
operations. -/
inductive Ev
  | send (msg : String)
  | logMsg (msg : String)
  | mkdirs (path : String)
  | writeArchive (nbytes : Nat)
  | removeArchive
  | extractTo (dir : String)
  | spawnProc (cmd : List String)
deriving DecidableEq, Repr

/-- Whether an event is a wire write. -/
def isSend : Ev → Bool
  | .send _ => true
  | _ => false

/-- Whether an event mutates the deployment filesystem (creates, removes or
writes a file or directory of the deployment: the staging archive, the deploy
directory tree). The log-file append performed by every `log` call is the
spec-mandated observability channel, not a deployment mutation. -/
def isFsMutation : Ev → Bool
  | .mkdirs _ => true
  | .writeArchive _ => true
  | .removeArchive => true
  | .extractTo _ => true
  | _ => false

/-- The wire messages of an event trace, in order. -/
def sends (evs : List Ev) : List String :=
  evs.filterMap (fun e => match e with | Ev.send m => some m | _ => none)

/-- The loop body of `read_exact` (receiver.py) over the successive transport
answers `chunks` (each `ser.read(min(16384, n - got))` returns at most the
requested number of bytes, modelled by truncation). Accumulates the bytes
written to the staging archive, the values passed to `progress_cb` — a
`PROGRESS` report fires exactly when `got` has advanced by at least
`PROGRESS_INTERVAL` since the last report — and the event trace. -/
def read_exact_go (n : Nat) :
    List (List Nat) → Nat → Nat → List Nat → List Nat → List Ev →
      Nat × List Nat × List Nat × List Ev
  | [], got, _, bytes, reports, evs => (got, bytes, reports, evs.reverse)
  | c :: cs, got, last, bytes, reports, evs =>
    if n ≤ got then (got, bytes, reports, evs.reverse)
    else
      let c' := c.take (min 16384 (n - got))
      if c'.length = 0 then read_exact_go n cs got last bytes reports evs
      else
        let got' := got + c'.length
        let evs' := Ev.writeArchive c'.length :: evs
        if PROGRESS_INTERVAL ≤ got' - last then
          read_exact_go n cs got' got' (bytes ++ c') (reports ++ [got'])
            (Ev.send ("PROGRESS " ++ toString got' ++ "\n") :: evs')
        else
          read_exact_go n cs got' last (bytes ++ c') reports evs'

/-- `read_exact(ser, n, ARCHIVE_PATH, progress_cb)` from receiver.py, over the
chunk sequence the transport delivers: returns the bytes held on loop exit,
the received byte values, the `PROGRESS` byte counts reported, and the trace. -/
def read_exact_run (n : Nat) (chunks : List (List Nat)) :
    Nat × List Nat × List Nat × List Ev :=
  read_exact_go n chunks 0 0 [] [] []

/-- `receive_config`'s normalization step (receiver.py): `setdefault` of the
include and exclude pattern lists. -/
def normalizeCfg (c : ConfigR) : ConfigR :=
  { c with
    includePatterns := some (c.includePatterns.getD ["**"])
    excludePatterns := some (c.excludePatterns.getD []) }

/-- Python `str.rstrip("\n")`. -/
def rstripNL (s : String) : String :=
  String.mk (s.toList.reverse.dropWhile (fun c => c == '\n')).reverse

/-- Python `os.path.dirname` (POSIX). -/
def os_path_dirname (p : String) : String :=
  let l := p.toList
  if l.contains '/' then
    let tailRev := l.reverse.takeWhile (fun c => c ≠ '/')
    let head := l.take (l.length - tailRev.length)
    if head.all (fun c => c == '/') then String.mk head
    else String.mk (head.reverse.dropWhile (fun c => c == '/')).reverse
  else ""

/-- Python `os.path.join` (POSIX) for two components. -/
def os_path_join (a b : String) : String :=
  if pyStartsWith b "/" then b
  else if a = "" then b
  else if pyStartsWith (String.mk a.toList.reverse) "/" then a ++ b
  else a ++ "/" ++ b

/-- Split a character list on `/` (the semantics of Python `p.split("/")`). -/
def splitSlash : List Char → List (List Char)
  | [] => [[]]
  | '/' :: t => [] :: splitSlash t
  | c :: t =>
    match splitSlash t with
    | [] => [[c]]
    | h :: r => (c :: h) :: r

/-- Join path segments with `/` (the semantics of `"/".join(segs)`). -/
def joinSlash : List String → String
  | [] => ""
  | [s] => s
  | s :: t => s ++ "/" ++ joinSlash t

/-- Lexical normalization of an absolute POSIX path (Python `os.path.normpath`
restricted to absolute inputs): duplicate slashes and `.` segments vanish,
`..` pops the previous segment. -/
def normAbs (p : String) : String :=
  let segs := ((splitSlash p.toList).map String.mk).filter (fun s => s != "" && s != ".")
  let final := segs.foldl
    (fun acc s => if s = ".." then acc.dropLast else acc ++ [s]) ([] : List String)
  "/" ++ joinSlash final

/-- Python `os.path.abspath` (POSIX) with current working directory `cwd`. -/
def os_path_abspath (cwd p : String) : String :=
  if pyStartsWith p "/" then normAbs p else normAbs (cwd ++ "/" ++ p)

/-- Result of the subprocess spawn performed by `run_with_config`
(receiver.py): either `Popen` raised, or the process ran, produced the given
raw output lines (stdout and stderr merged, each line as Python file
iteration yields it), and exited with the given code. -/
inductive SpawnResult
  | fail (detail : String)
  | ok (outputLines : List String) (exitCode : Int)
deriving DecidableEq, Repr

/-- `run_with_config(config, ser)` from receiver.py, as an event trace.
`mainExists` is whether the resolved entry-point path exists. -/
def run_with_config (cfg : ConfigR) (mainExists : Bool) (sp : SpawnResult) : List Ev :=
  let deploy := cfg.directory.getD DEFAULT_APP_DIR
  let mainRel := cfg.main.getD "main.py"
  let mainPath := os_path_join deploy mainRel
  if !mainExists then
    [Ev.logMsg ("main not found: " ++ mainPath),
     Ev.send ("ERR_RUN main not found: " ++ mainPath ++ "\n")]
  else
    let cmd := ["python3", "-u", mainPath] ++ cfg.args.getD []
    match sp with
    | .fail e =>
      [Ev.logMsg ("Starting process: " ++ String.intercalate " " cmd),
       Ev.logMsg ("Failed to start process: " ++ e),
       Ev.send ("ERR_RUN " ++ e ++ "\n")]
    | .ok lines code =>
      [Ev.logMsg ("Starting process: " ++ String.intercalate " " cmd),
       Ev.spawnProc cmd,
       Ev.send "RUNNING\n"] ++
      ((lines.filter (fun l => l ≠ "")).map (fun l =>
        [Ev.logMsg ("APP: " ++ rstripNL l), Ev.send (rstripNL l ++ "\n")])).flatten ++
      [Ev.logMsg ("Process exited with code " ++ toString code),
       Ev.send ("EXIT " ++ toString code ++ "\n")]

/-- Abstract agent filesystem: each *resolved absolute* directory path maps to
the list of files it holds (`none` when the directory does not exist).
Operations of receiver.py key into it through `os_path_abspath`, matching the
kernel resolving every path against the actual tree. -/
abbrev FS := String → Option (List String)

/-- Python `os.path.exists(p)` over the abstract filesystem: the empty string
never exists, any other path exists iff its resolved directory does. -/
def fs_exists (cwd : String) (fs : FS) (p : String) : Bool :=
  p ≠ "" && (fs (os_path_abspath cwd p)).isSome

/-- Whether path `p` equals `root` or lies strictly below it. -/
def pathUnder (p root : String) : Bool :=
  p == root || pyStartsWith p (root ++ "/")

/-- `extract_archive_to(archive_path, target_dir)` from receiver.py, over the
abstract filesystem: if the target exists and resolves to `/` (or the empty
string), refuse with `DANGEROUS_PATH`; otherwise `shutil.rmtree` the target
tree if present, `os.makedirs` it and unpack the archive members into it
(`os.makedirs("")` raises, caught by the surrounding handler, so an empty
target changes nothing). Returns the `(ok, err)` pair and the new state. -/
def extract_archive_to (cwd : String) (archive : List String) (target : String)
    (fs : FS) : (Bool × Option String) × FS :=
  let A := os_path_abspath cwd target
  if fs_exists cwd fs target then
    if A = "/" ∨ A = "" then
      ((false, some "DANGEROUS_PATH"), fs)
    else
      let fs1 : FS := fun p => if pathUnder p A then none else fs p
      let fs2 : FS := fun p => if p = A then some archive else fs1 p
      ((true, none), fs2)
  else
    if target = "" then ((false, some "FileNotFoundError"), fs)
    else ((true, none), fun p => if p = A then some archive else fs p)

/-- Per-header external data consumed by the agent's command loop: the header
line itself (decoded and stripped by `read_line`), the CONFIG payload the
transport delivers, the chunk sequence delivered during an UPLOAD, the
outcome of `extract_archive_to` on the surrounding filesystem, whether the
RUN entry point exists, and the spawn outcome. -/
structure HeaderInput where
  header : String
  configPayload : String
  uploadChunks : List (List Nat)
  extractErr : Option String
  mainExists : Bool
  spawnRes : SpawnResult
deriving DecidableEq, Repr

/-- The CONFIG branch of receiver.py's `main` loop: split the header with
`maxsplit=1`; a wrong field count replies `ERR_CONFIG_HEADER`; `int(parts[1])`
raising `ValueError` propagates to the loop-level `except`, which only logs
(`Exception: ...`) and sleeps; otherwise `receive_config` reads and parses the
payload — a parse failure replies `ERR_CONFIG_PARSE` leaving the previous
config, success normalizes, stores the config and replies `OK_CONFIG`. -/
def handleConfig (jsonParse : String → Option ConfigR) (config : Option ConfigR)
    (header : String) (payload : String) : List Ev × Option ConfigR :=
  match pySplitStr 1 header with
  | [_, sizeS] =>
    match pyInt sizeS with
    | none => ([Ev.logMsg ("Exception: invalid literal for int: " ++ sizeS)], config)
    | some _ =>
      match jsonParse payload with
      | none =>
        ([Ev.logMsg "Failed to parse config.json",
          Ev.send "ERR_CONFIG_PARSE\n",
          Ev.logMsg "Failed to parse config; ignoring."], config)
      | some cfg0 =>
        let cfg := normalizeCfg cfg0
        ([Ev.send "OK_CONFIG\n", Ev.logMsg "Config received"], some cfg)
  | _ =>
    ([Ev.send "ERR_CONFIG_HEADER\n", Ev.logMsg ("Bad CONFIG header: " ++ header)],
     config)

/-- The UPLOAD branch of receiver.py's `main` loop once a config is active:
split the header with `maxsplit=3` (fewer than 4 fields or a bad size reply
`ERR_HEADER`), ensure the deploy parent directory exists, reply `OK`, run
`read_exact` over the delivered chunks, then compare digests: on mismatch
reply `ERR_CHECKSUM <actual>` and delete the staging archive; on match reply
`DONE` and only then extract into the deploy directory, logging the result. -/
def handleUpload (sha : List Nat → String) (cfg : ConfigR) (header : String)
    (chunks : List (List Nat)) (extractErr : Option String) : List Ev :=
  match pySplitStr 3 header with
  | [_, sizeS, shaExpected, name] =>
    match pyInt sizeS with
    | none => [Ev.send "ERR_HEADER\n", Ev.logMsg ("Bad size in header: " ++ sizeS)]
    | some sizeZ =>
      let size := sizeZ.toNat
      let deploy := cfg.directory.getD DEFAULT_APP_DIR
      let dirn := os_path_dirname deploy
      let res := read_exact_run size chunks
      let actual := sha res.2.1
      [Ev.mkdirs (if dirn = "" then deploy else dirn),
       Ev.logMsg ("UPLOAD requested: name=" ++ name ++ " size=" ++ toString sizeZ ++
                  " sha256=" ++ shaExpected ++ " deploy_to=" ++ deploy),
       Ev.send "OK\n"] ++ res.2.2.2 ++
      [Ev.logMsg ("Received " ++ toString res.1 ++ " bytes, computed sha256=" ++ actual)] ++
      (if actual ≠ shaExpected then
        [Ev.send ("ERR_CHECKSUM " ++ actual ++ "\n"),
         Ev.logMsg "Checksum mismatch. Waiting for possible retry.",
         Ev.removeArchive]
      else
        [Ev.send "DONE\n", Ev.extractTo deploy] ++
        (match extractErr with
         | none => [Ev.logMsg ("Extraction succeeded into " ++ deploy ++ ".")]
         | some e => [Ev.logMsg ("Extraction failed: " ++ e)]))
  | _ => [Ev.send "ERR_HEADER\n", Ev.logMsg ("Bad UPLOAD header: " ++ header)]

/-- One iteration of receiver.py's `main` command loop: dispatch on the header
line. An empty header just continues; `CONFIG*` and `UPLOAD*` dispatch by
`str.startswith`; UPLOAD and RUN are rejected with `ERR_NO_CONFIG` while no
config is active; anything else is logged and ignored. Returns the event
trace and the (possibly updated) active config; every branch returns — the
loop never terminates on a command. -/
def handleHeader (jsonParse : String → Option ConfigR) (sha : List Nat → String)
    (config : Option ConfigR) (inp : HeaderInput) : List Ev × Option ConfigR :=
  let h := inp.header
  if h = "" then ([], config)
  else if pyStartsWith h "CONFIG" then
    handleConfig jsonParse config h inp.configPayload
  else if pyStartsWith h "UPLOAD" then
    match config with
    | none =>
      ([Ev.send "ERR_NO_CONFIG\n", Ev.logMsg "UPLOAD received but no config present."],
       none)
    | some cfg => (handleUpload sha cfg h inp.uploadChunks inp.extractErr, some cfg)
  else if h = "RUN" then
    match config with
    | none =>
      ([Ev.send "ERR_NO_CONFIG\n", Ev.logMsg "RUN received but no config present."],
       none)
    | some cfg =>
      (Ev.logMsg "RUN command received; starting application." ::
        run_with_config cfg inp.mainExists inp.spawnRes, some cfg)
  else ([Ev.logMsg ("Ignoring unknown command: " ++ h)], config)

/-- The agent command loop over a sequence of headers, threading the active
config (`DeploymentState`) through and concatenating the event traces. -/
def agentLoop (jsonParse : String → Option ConfigR) (sha : List Nat → String) :
    Option ConfigR → List HeaderInput → List Ev
  | _, [] => []
  | cfg, inp :: rest =>
    let r := handleHeader jsonParse sha cfg inp
    r.1 ++ agentLoop jsonParse sha r.2 rest

/-- The concrete scenario configuration of spec §8: include `**`, exclude
`*.log`, deploy to `/deploy`, entry point `app.py` with argument `--x`. -/
def scenarioCfg : ConfigR :=
  { directory := some "/deploy", main := some "app.py", args := some ["--x"],
    includePatterns := some ["**"], excludePatterns := some ["*.log"] }

/-- C3: the archive built by `make_archive` contains `config.json` whenever the
walked tree does, regardless of the filters; any other file is a member iff it
is in the tree, matches at least one include glob and matches no exclude glob;
and on the concrete scenario tree `app.py`, `data.log`, `config.json` with
include `["**"]` and exclude `["*.log"]` the archive is exactly `app.py` and
`config.json`. -/
theorem C3_archive_filter (tree : List String) (config : ConfigR) :
    (("config.json" ∈ tree → "config.json" ∈ make_archive tree config) ∧
      ∀ f : String, f ∈ make_archive tree config ↔
        f ∈ tree ∧ (f = "config.json" ∨
          (should_include f (config.includePatterns.getD ["**"]) = true ∧
            should_exclude f (config.excludePatterns.getD []) = false))) ∧
    make_archive ["app.py", "data.log", "config.json"] scenarioCfg =
      ["app.py", "config.json"] := by
  refine ⟨⟨?_, ?_⟩, by decide⟩
  · intro h
    simp only [make_archive, List.mem_filter]
    exact ⟨h, by simp⟩
  · intro f
    simp only [make_archive, List.mem_filter, Bool.or_eq_true, Bool.and_eq_true,
      beq_iff_eq, Bool.not_eq_true']

/-- Witness for C3 at the concrete scenario tree. -/
theorem C3_archive_filter_witness :
    "config.json" ∈ make_archive ["app.py", "data.log", "config.json"] scenarioCfg ∧
      ("data.log" ∈ make_archive ["app.py", "data.log", "config.json"] scenarioCfg ↔
        "data.log" ∈ (["app.py", "data.log", "config.json"] : List String) ∧
          ("data.log" = "config.json" ∨
            (should_include "data.log" (scenarioCfg.includePatterns.getD ["**"]) = true ∧
              should_exclude "data.log" (scenarioCfg.excludePatterns.getD []) = false))) :=
  ⟨(C3_archive_filter ["app.py", "data.log", "config.json"] scenarioCfg).1.1 (by decide),
   (C3_archive_filter ["app.py", "data.log", "config.json"] scenarioCfg).1.2 "data.log"⟩

/-- The attempt counter of the retry loop never exceeds the remaining budget. -/
theorem retryAux_count_le (outcomes : Nat → Bool) :
    ∀ (r k : Nat), (retryAux outcomes k r).2.1 ≤ r := by
  intro r
  induction r with
  | zero => intro k; simp [retryAux]
  | succ r ih =>
    intro k
    have hh := ih (k + 1)
    by_cases h : outcomes k = true
    · simp [retryAux, h]
    · simp [retryAux, h]
      omega

/-- The delay recorded after the `i`-th failure when attempts start at `k ≥ 1`. -/
theorem retryAux_delay_eq (outcomes : Nat → Bool) :
    ∀ (r k : Nat), 1 ≤ k → ∀ i : Nat, i < (retryAux outcomes k r).2.2.length →
      (retryAux outcomes k r).2.2[i]? = some (RETRY_BASE_DELAY * 2 ^ (k - 1 + i)) := by
  intro r
  induction r with
  | zero => intro k _ i h; simp [retryAux] at h
  | succ r ih =>
    intro k hk i h
    by_cases ho : outcomes k = true
    · simp [retryAux, ho] at h
    · have e : (retryAux outcomes k (r + 1)).2.2 =
          RETRY_BASE_DELAY * 2 ^ (k - 1) :: (retryAux outcomes (k + 1) r).2.2 := by
        simp [retryAux, ho]
      rw [e] at h ⊢
      match i with
      | 0 => simp
      | i + 1 =>
        simp only [List.getElem?_cons_succ]
        have hrec := ih (k + 1) (by omega) i (by simpa using h)
        rw [hrec, show k + 1 - 1 + i = k - 1 + (i + 1) from by omega]

/-- If `m` is the first successful attempt and it is within budget, the loop
returns success having made exactly `m - k + 1` attempts. -/
theorem retryAux_first_success (outcomes : Nat → Bool) :
    ∀ (r k m : Nat), k ≤ m → m < k + r → outcomes m = true →
      (∀ j, k ≤ j → j < m → outcomes j = false) →
      (retryAux outcomes k r).1 = true ∧ (retryAux outcomes k r).2.1 = m - k + 1 := by
  intro r
  induction r with
  | zero => intro k m h1 h2; omega
  | succ r ih =>
    intro k m h1 h2 hm hmin
    by_cases ho : outcomes k = true
    · have hkm : k = m := by
        by_contra hne
        have : outcomes k = false := hmin k (le_refl k) (by omega)
        simp [this] at ho
      subst hkm
      simp [retryAux, ho]
    · have hkm : k < m := by
        rcases Nat.lt_or_ge k m with h | h
        · exact h
        · have : k = m := by omega
          subst this; simp [hm] at ho
      have hrec := ih (k + 1) m (by omega) (by omega) hm
        (fun j hj1 hj2 => hmin j (by omega) hj2)
      have e1 : (retryAux outcomes k (r + 1)).1 = (retryAux outcomes (k + 1) r).1 := by
        simp [retryAux, ho]
      have e2 : (retryAux outcomes k (r + 1)).2.1 =
          (retryAux outcomes (k + 1) r).2.1 + 1 := by
        simp [retryAux, ho]
      rw [e1, e2]
      exact ⟨hrec.1, by omega⟩

/-- C7: the controller retry loop makes at most `MAX_RETRIES = 5` attempts,
stops at the first successful attempt, and the delay slept after failed
attempt `k` (the `k`-th recorded delay, 1-based) is
`RETRY_BASE_DELAY * 2 ^ (k - 1)`. -/
theorem C7_retry_backoff (outcomes : Nat → Bool) :
    (send_with_retries outcomes).2.1 ≤ MAX_RETRIES ∧
    (∀ m, 1 ≤ m → m ≤ MAX_RETRIES → outcomes m = true →
      (∀ j, 1 ≤ j → j < m → outcomes j = false) →
      (send_with_retries outcomes).1 = true ∧ (send_with_retries outcomes).2.1 = m) ∧
    (∀ i : Nat, i < (send_with_retries outcomes).2.2.length →
      (send_with_retries outcomes).2.2[i]? = some (RETRY_BASE_DELAY * 2 ^ i)) := by
  refine ⟨retryAux_count_le outcomes MAX_RETRIES 1, ?_, ?_⟩
  · intro m h1 h2 hm hmin
    have := retryAux_first_success outcomes MAX_RETRIES 1 m h1
      (by unfold MAX_RETRIES at h2 ⊢; omega) hm hmin
    exact ⟨this.1, by unfold send_with_retries; omega⟩
  · intro i h
    have := retryAux_delay_eq outcomes MAX_RETRIES 1 (le_refl 1) i h
    simpa using this

/-- Witness for C7: with attempts succeeding first at attempt 2, the loop
reports success after exactly 2 attempts. -/
theorem C7_retry_backoff_witness :
    (send_with_retries (fun k => k == 2)).1 = true ∧
      (send_with_retries (fun k => k == 2)).2.1 = 2 :=
  (C7_retry_backoff (fun k => k == 2)).2.1 2 (by decide) (by decide) (by decide)
    (fun j hj1 hj2 => by
      have : j = 1 := by omega
      subst this; decide)

/-- Bytes held by `recv_n` after `k` iterations: the polling loop holds the
minimum of the request and the cumulative bytes the transport has delivered —
in particular it exits (holding `n`) exactly when the transport has delivered
`n` bytes, and loops forever otherwise, as it has no timeout branch. -/
theorem recv_n_got_eq (stream : Nat → Nat) (n : Nat) :
    ∀ k : Nat, recv_n_got stream n k = min n (∑ i ∈ Finset.range k, stream i) := by
  intro k
  induction k with
  | zero => simp [recv_n_got]
  | succ k ih =>
    simp only [recv_n_got, ih, Finset.sum_range_succ]
    split_ifs with h <;> omega

/-- Bytes held by `read_exact` after `k` iterations: as for `recv_n`, but each
iteration accepts at most 16384 bytes from the transport. -/
theorem read_exact_got_eq (stream : Nat → Nat) (n : Nat) :
    ∀ k : Nat, read_exact_got stream n k =
      min n (∑ i ∈ Finset.range k, min (stream i) 16384) := by
  intro k
  induction k with
  | zero => simp [read_exact_got]
  | succ k ih =>
    simp only [read_exact_got, ih, Finset.sum_range_succ]
    split_ifs with h <;> omega

/-- Counterexample to C4: when the transport permanently stops delivering
bytes (every read returns empty), the agent's `recv_n` payload-read loop never
exits — after any number of iterations it still holds 0 of the 1 declared
bytes — so the read does not terminate with a timeout failure after a bounded
wait; the source loop has no timeout branch at all. -/
theorem C4_counterexample : ¬ ∃ k : Nat, 1 ≤ recv_n_got (fun _ => 0) 1 k := by
  rintro ⟨k, hk⟩
  rw [recv_n_got_eq] at hk
  simp at hk

/-- C4 as amended: the agent payload reads (`recv_n` for CONFIG, `read_exact`
for UPLOAD) poll with a short sleep whenever the transport returns no bytes
but observe no timeout: after `k` iterations each loop holds exactly the
minimum of the declared size and the bytes delivered so far, so it terminates
precisely when the transport eventually delivers the declared size and
otherwise polls forever. -/
theorem C4_amended_payload_reads (stream : Nat → Nat) (n k : Nat) :
    recv_n_got stream n k = min n (∑ i ∈ Finset.range k, stream i) ∧
      read_exact_got stream n k =
        min n (∑ i ∈ Finset.range k, min (stream i) 16384) :=
  ⟨recv_n_got_eq stream n k, read_exact_got_eq stream n k⟩

/-- The post-payload wait loop never resolves when the transport stays silent. -/
theorem awaitResultRun_silent : ∀ k : Nat, awaitResultRun (fun _ => none) k = none := by
  intro k
  induction k with
  | zero => rfl
  | succ k ih => simp [awaitResultRun, ih, resultStep]

/-- Counterexample to C5: the controller's third acknowledgement wait (for
`DONE` or `ERR_CHECKSUM` after the payload bytes) has no wait-budget check in
the source: if the agent never sends a line, the wait never resolves, at any
number of iterations — it blocks forever instead of failing with a timeout
reason. -/
theorem C5_counterexample :
    ¬ ∃ (k : Nat) (o : ResultOutcome), awaitResultRun (fun _ => none) k = some o := by
  rintro ⟨k, o, h⟩
  rw [awaitResultRun_silent] at h
  cases h

/-- One iteration of the `OK_CONFIG`/`OK` wait always resolves once the clock
has passed the budget: every branch of its body then returns an outcome. -/
theorem ackStep_isSome (expected : String) (b : Nat) (lineOpt : Option String)
    (now : Nat) (h : b < now) : (ackStep expected b lineOpt now).isSome = true := by
  cases lineOpt with
  | none => simp [ackStep, h]
  | some resp =>
    by_cases h1 : (resp == expected) = true
    · simp [ackStep, h1]
    · by_cases h2 : pyStartsWith resp "ERR" = true
      · simp [ackStep, h1, h2]
      · simp [ackStep, h1, h2, h]

/-- C5 as amended: the `OK_CONFIG` and `OK` waits each resolve — expected
token, any `ERR*` token, or timeout — within one iteration of the clock
passing the 10-second budget; the post-payload wait resolves only when a
`DONE` or `ERR_CHECKSUM` line arrives (all other lines, e.g. `PROGRESS` or
other `ERR*` tokens, are skipped), and does resolve when one arrives; it has
no timeout, so a silent agent blocks it forever. -/
theorem C5_amended_ack_waits :
    (∀ (expected : String) (reads : Nat → Option String) (clock : Nat → Nat) (t0 k : Nat),
      t0 + 10 < clock k →
        ∃ j : Nat, (waitAckRun expected reads clock t0 j).isSome = true) ∧
    (∀ (reads : Nat → Option String) (k : Nat) (o : ResultOutcome),
      awaitResultRun reads k = some o →
        ∃ j : Nat, (resultStep (reads j)).isSome = true) ∧
    (∀ (reads : Nat → Option String) (j : Nat),
      (resultStep (reads j)).isSome = true →
        ∃ (k : Nat) (o : ResultOutcome), awaitResultRun reads k = some o) := by
  refine ⟨?_, ?_, ?_⟩
  · intro expected reads clock t0 k hk
    refine ⟨k + 1, ?_⟩
    rw [waitAckRun]
    cases hw : waitAckRun expected reads clock t0 k with
    | some o => simp
    | none =>
      show (ackStep expected (t0 + 10) (reads k) (clock k)).isSome = true
      exact ackStep_isSome expected (t0 + 10) (reads k) (clock k) hk
  · intro reads k
    induction k with
    | zero => intro o h; cases h
    | succ k ih =>
      intro o h
      cases hw : awaitResultRun reads k with
      | some o' => exact ih o' hw
      | none =>
        have h' : resultStep (reads k) = some o := by
          rw [awaitResultRun, hw] at h
          exact h
        exact ⟨k, by rw [h']; rfl⟩
  · intro reads j hj
    cases hw : awaitResultRun reads j with
    | some o => exact ⟨j, o, hw⟩
    | none =>
      obtain ⟨o, ho⟩ := Option.isSome_iff_exists.mp hj
      refine ⟨j + 1, o, ?_⟩
      rw [awaitResultRun, hw]
      exact ho

/-- Witness for the amended C5, at concrete inputs: a silent transport with an
advancing clock resolves the `OK_CONFIG` wait (by timeout); a transport that
sends `DONE` resolves the post-payload wait; and a resolved post-payload wait
implies a resolving line was read. -/
theorem C5_amended_ack_waits_witness :
    (∃ j : Nat,
      (waitAckRun "OK_CONFIG" (fun _ => none) (fun i => i) 0 j).isSome = true) ∧
    (∃ j : Nat, (resultStep ((fun _ => some "DONE") j)).isSome = true) ∧
    (∃ (k : Nat) (o : ResultOutcome),
      awaitResultRun (fun _ => some "DONE") k = some o) :=
  ⟨C5_amended_ack_waits.1 "OK_CONFIG" (fun _ => none) (fun i => i) 0 11 (by norm_num),
   C5_amended_ack_waits.2.1 (fun _ => some "DONE") 1 .done (by decide),
   C5_amended_ack_waits.2.2 (fun _ => some "DONE") 0 (by decide)⟩

/-- A character list is an initial segment of itself extended by anything. -/
theorem strStarts_self_append : ∀ l m : List Char, strStarts l (l ++ m) = true := by
  intro l
  induction l with
  | nil => intro m; rfl
  | cons a t ih => intro m; simp [strStarts, ih]

/-- `startswith` holds whenever the underlying characters begin with those of
the pattern. -/
theorem pyStartsWith_of_data (s p : String) (m : List Char) (h : s.data = p.data ++ m) :
    pyStartsWith s p = true := by
  show strStarts p.data s.data = true
  rw [h]
  exact strStarts_self_append _ _

/-- Invariant of the `read_exact` loop: starting from a state whose reports
are spaced by at least `PROGRESS_INTERVAL`, all bounded by the last progress
checkpoint, itself at most the bytes held, the final report list keeps the
spacing and stays bounded by the declared size `n`. -/
theorem read_exact_go_reports (n : Nat) :
    ∀ (cs : List (List Nat)) (got last : Nat) (bytes reports : List Nat) (evs : List Ev),
      last ≤ got → got ≤ n →
      List.Chain' (fun a b => a + PROGRESS_INTERVAL ≤ b) reports →
      (∀ r ∈ reports, r ≤ last) →
      (reports.getLast? = none ∨ reports.getLast? = some last) →
      List.Chain' (fun a b => a + PROGRESS_INTERVAL ≤ b)
          (read_exact_go n cs got last bytes reports evs).2.2.1 ∧
        ∀ r ∈ (read_exact_go n cs got last bytes reports evs).2.2.1, r ≤ n := by
  intro cs
  induction cs with
  | nil =>
    intro got last bytes reports evs h1 h2 h3 h4 _
    simp only [read_exact_go]
    exact ⟨h3, fun r hr => le_trans (le_trans (h4 r hr) h1) h2⟩
  | cons c cs ih =>
    intro got last bytes reports evs h1 h2 h3 h4 h5
    by_cases hng : n ≤ got
    · simp only [read_exact_go, if_pos hng]
      exact ⟨h3, fun r hr => le_trans (le_trans (h4 r hr) h1) h2⟩
    · have hlt : (c.take (min 16384 (n - got))).length ≤ n - got := by
        have := List.length_take (min 16384 (n - got)) c
        omega
      by_cases hcz : (c.take (min 16384 (n - got))).length = 0
      · simp only [read_exact_go, if_neg hng, if_pos hcz]
        exact ih got last bytes reports evs h1 h2 h3 h4 h5
      · by_cases hpi :
            PROGRESS_INTERVAL ≤ got + (c.take (min 16384 (n - got))).length - last
        · simp only [read_exact_go, if_neg hng, if_neg hcz, if_pos hpi]
          apply ih
          · exact le_refl _
          · omega
          · refine List.chain'_append.2 ⟨h3, List.chain'_singleton _, ?_⟩
            intro x hx y hy
            rcases h5 with h5 | h5
            · rw [h5] at hx; cases hx
            · rw [h5] at hx
              simp only [Option.mem_def, Option.some.injEq] at hx
              simp only [List.head?_cons, Option.mem_def, Option.some.injEq] at hy
              subst hx; subst hy
              omega
          · intro r hr
            rcases List.mem_append.mp hr with hr | hr
            · exact le_trans (le_trans (h4 r hr) h1) (Nat.le_add_right _ _)
            · simp only [List.mem_singleton] at hr
              omega
          · exact Or.inr (List.getLast?_concat reports)
        · simp only [read_exact_go, if_neg hng, if_neg hcz, if_neg hpi]
          apply ih
          · exact le_trans h1 (Nat.le_add_right _ _)
          · omega
          · exact h3
          · exact h4
          · exact h5

/-- C10: within one UPLOAD payload reception, the byte counts reported by
successive `PROGRESS` lines are spaced by at least `PROGRESS_INTERVAL = 65536`
bytes, hence strictly increasing, and never exceed the declared payload
size. -/
theorem C10_progress_reports (n : Nat) (chunks : List (List Nat)) :
    List.Chain' (fun a b => a + PROGRESS_INTERVAL ≤ b) (read_exact_run n chunks).2.2.1 ∧
    List.Chain' (fun a b => a < b) (read_exact_run n chunks).2.2.1 ∧
    ∀ r ∈ (read_exact_run n chunks).2.2.1, r ≤ n := by
  have h := read_exact_go_reports n chunks 0 0 [] [] [] (le_refl 0) (Nat.zero_le n)
    List.chain'_nil (by simp) (Or.inl rfl)
  refine ⟨h.1, h.1.imp ?_, h.2⟩
  intro a b hab
  have : (0 : Nat) < PROGRESS_INTERVAL := by decide
  omega

/-- Initial-segment matching peels one character at a time. -/
theorem strStarts_cons_ex (a : Char) (p s : List Char) (h : strStarts (a :: p) s = true) :
    ∃ t, s = a :: t ∧ strStarts p t = true := by
  cases s with
  | nil => simp [strStarts] at h
  | cons b t =>
    simp only [strStarts, Bool.and_eq_true, beq_iff_eq] at h
    exact ⟨t, by rw [h.1], h.2⟩

/-- A header passing `startswith("UPLOAD")` begins with `U`. -/
theorem upload_head (h : String) (hu : pyStartsWith h "UPLOAD" = true) :
    ∃ t, h.data = 'U' :: t := by
  have e : "UPLOAD".toList = 'U' :: ['P', 'L', 'O', 'A', 'D'] := rfl
  unfold pyStartsWith at hu
  rw [e] at hu
  obtain ⟨t, ht, _⟩ := strStarts_cons_ex _ _ _ hu
  exact ⟨t, ht⟩

/-- A header passing `startswith("UPLOAD")` does not pass `startswith("CONFIG")`. -/
theorem upload_not_config (h : String) (hu : pyStartsWith h "UPLOAD" = true) :
    pyStartsWith h "CONFIG" = false := by
  obtain ⟨t, ht⟩ := upload_head h hu
  show strStarts "CONFIG".toList h.data = false
  have e : "CONFIG".toList = 'C' :: ['O', 'N', 'F', 'I', 'G'] := rfl
  rw [e, ht]
  simp [strStarts]

/-- A header passing `startswith("UPLOAD")` is nonempty. -/
theorem upload_ne_empty (h : String) (hu : pyStartsWith h "UPLOAD" = true) : ¬h = "" := by
  obtain ⟨t, ht⟩ := upload_head h hu
  intro he
  subst he
  simp at ht

/-- A header passing `startswith("CONFIG")` begins with `C`, so it is nonempty. -/
theorem config_ne_empty (h : String) (hc : pyStartsWith h "CONFIG" = true) : ¬h = "" := by
  have e : "CONFIG".toList = 'C' :: ['O', 'N', 'F', 'I', 'G'] := rfl
  unfold pyStartsWith at hc
  rw [e] at hc
  obtain ⟨t, ht, _⟩ := strStarts_cons_ex _ _ _ hc
  intro he
  subst he
  simp at ht

/-- C2: an UPLOAD or RUN header handled while no config has been accepted is
answered with `ERR_NO_CONFIG` (plus the log line the spec mandates), performs
no deployment-filesystem mutation, leaves the connection state configless,
and the command loop goes on to process the remaining headers. -/
theorem C2_no_config_rejected (jsonParse : String → Option ConfigR)
    (sha : List Nat → String) (inp : HeaderInput) (rest : List HeaderInput)
    (hcmd : pyStartsWith inp.header "UPLOAD" = true ∨ inp.header = "RUN") :
    ∃ logline : String,
      handleHeader jsonParse sha none inp =
        ([Ev.send "ERR_NO_CONFIG\n", Ev.logMsg logline], none) ∧
      (∀ e ∈ (handleHeader jsonParse sha none inp).1, isFsMutation e = false) ∧
      agentLoop jsonParse sha none (inp :: rest) =
        (handleHeader jsonParse sha none inp).1 ++ agentLoop jsonParse sha none rest := by
  have e : ∃ logline : String,
      handleHeader jsonParse sha none inp =
        ([Ev.send "ERR_NO_CONFIG\n", Ev.logMsg logline], none) := by
    rcases hcmd with hu | hr
    · refine ⟨"UPLOAD received but no config present.", ?_⟩
      simp only [handleHeader]
      rw [if_neg (upload_ne_empty inp.header hu), upload_not_config inp.header hu,
        if_neg Bool.false_ne_true, hu, if_pos rfl]
    · refine ⟨"RUN received but no config present.", ?_⟩
      simp only [handleHeader]
      rw [hr]
      rfl
  obtain ⟨logline, e⟩ := e
  refine ⟨logline, e, ?_, ?_⟩
  · rw [e]
    intro ev hev
    simp only [List.mem_cons, List.not_mem_nil, or_false] at hev
    rcases hev with hev | hev <;> subst hev <;> rfl
  · simp [agentLoop, e]

/-- Fixed benign external data for running a single header through the agent. -/
def mkInput (h : String) : HeaderInput :=
  { header := h, configPayload := "", uploadChunks := [], extractErr := none,
    mainExists := false, spawnRes := .fail "" }

/-- Witness for C2 at the header `UPLOAD 1 aa x` with no active config. -/
theorem C2_no_config_rejected_witness :
    ∃ logline : String,
      handleHeader (fun _ => none) (fun _ => "") none (mkInput "UPLOAD 1 aa x") =
        ([Ev.send "ERR_NO_CONFIG\n", Ev.logMsg logline], none) ∧
      (∀ e ∈ (handleHeader (fun _ => none) (fun _ => "") none
          (mkInput "UPLOAD 1 aa x")).1, isFsMutation e = false) ∧
      agentLoop (fun _ => none) (fun _ => "") none [mkInput "UPLOAD 1 aa x"] =
        (handleHeader (fun _ => none) (fun _ => "") none (mkInput "UPLOAD 1 aa x")).1 ++
          agentLoop (fun _ => none) (fun _ => "") none [] :=
  C2_no_config_rejected (fun _ => none) (fun _ => "") (mkInput "UPLOAD 1 aa x") []
    (Or.inl (by decide))

/-- Counterexample to C6: the CONFIG header `CONFIG abc` — whose size argument
is not a decimal integer — produces no wire token at all: `int(parts[1])`
raises `ValueError`, which the CONFIG branch does not catch, so the loop-level
handler logs it and continues; the resulting trace contains no send event (in
particular no `ERR_CONFIG_HEADER`) and is not empty — the failure is reported
by log line only. -/
theorem C6_counterexample :
    ((handleHeader (fun _ => none) (fun _ => "") none (mkInput "CONFIG abc")).1.filter
        (fun e => isSend e) = []) ∧
      (handleHeader (fun _ => none) (fun _ => "") none (mkInput "CONFIG abc")).1 ≠ [] := by
  refine ⟨by rfl, by decide⟩

/-- C6 as amended: a CONFIG header with the wrong number of fields is answered
with the `ERR_CONFIG_HEADER` wire token (and a log line); a CONFIG header
whose size token is printable ASCII that Python `int()` rejects (not a
decimal-digit run with optional sign and PEP 515 underscore grouping) instead
raises `ValueError`, which only the loop-level handler catches — no wire
token is sent, the failure is reported by log line only, and the active
config is unchanged; in either case the command loop continues with the
remaining headers. The printable-ASCII restriction scopes the statement to
the tokens on which the `pyInt` model agrees exactly with `int()`. -/
theorem C6_amended_config_header (jsonParse : String → Option ConfigR)
    (sha : List Nat → String) (cfg : Option ConfigR) (inp : HeaderInput)
    (rest : List HeaderInput) (hc : pyStartsWith inp.header "CONFIG" = true) :
    ((pySplitStr 1 inp.header).length ≠ 2 →
      handleHeader jsonParse sha cfg inp =
        ([Ev.send "ERR_CONFIG_HEADER\n",
          Ev.logMsg ("Bad CONFIG header: " ++ inp.header)], cfg)) ∧
    (∀ t sizeS : String, pySplitStr 1 inp.header = [t, sizeS] →
      (∀ c ∈ sizeS.data, 32 < c.toNat ∧ c.toNat < 127) → pyInt sizeS = none →
      (handleHeader jsonParse sha cfg inp).1.filter (fun e => isSend e) = [] ∧
      (handleHeader jsonParse sha cfg inp).2 = cfg) ∧
    agentLoop jsonParse sha cfg (inp :: rest) =
      (handleHeader jsonParse sha cfg inp).1 ++
        agentLoop jsonParse sha (handleHeader jsonParse sha cfg inp).2 rest := by
  have e0 : handleHeader jsonParse sha cfg inp =
      handleConfig jsonParse cfg inp.header inp.configPayload := by
    simp only [handleHeader]
    rw [if_neg (config_ne_empty inp.header hc), hc, if_pos rfl]
  refine ⟨?_, ?_, rfl⟩
  · intro hlen
    rw [e0]
    rcases hsp : pySplitStr 1 inp.header with _ | ⟨a, rest2⟩
    · simp [handleConfig, hsp]
    · rcases rest2 with _ | ⟨b, rest3⟩
      · simp [handleConfig, hsp]
      · rcases rest3 with _ | ⟨c, rest4⟩
        · exfalso
          rw [hsp] at hlen
          simp at hlen
        · simp [handleConfig, hsp]
  · intro t sizeS hsp _hascii hint
    have e1 : handleConfig jsonParse cfg inp.header inp.configPayload =
        ([Ev.logMsg ("Exception: invalid literal for int: " ++ sizeS)], cfg) := by
      simp [handleConfig, hsp, hint]
    rw [e0, e1]
    exact ⟨rfl, rfl⟩

/-- Witness for the amended C6: `CONFIG` alone gets `ERR_CONFIG_HEADER`;
`CONFIG abc` produces no wire token and leaves the config state unchanged. -/
theorem C6_amended_config_header_witness :
    handleHeader (fun _ => none) (fun _ => "") none (mkInput "CONFIG") =
      ([Ev.send "ERR_CONFIG_HEADER\n",
        Ev.logMsg ("Bad CONFIG header: " ++ (mkInput "CONFIG").header)], none) ∧
    ((handleHeader (fun _ => none) (fun _ => "") none (mkInput "CONFIG abc")).1.filter
        (fun e => isSend e) = [] ∧
      (handleHeader (fun _ => none) (fun _ => "") none (mkInput "CONFIG abc")).2 =
        none) :=
  ⟨(C6_amended_config_header (fun _ => none) (fun _ => "") none (mkInput "CONFIG") []
      (by decide)).1 (by decide),
   (C6_amended_config_header (fun _ => none) (fun _ => "") none (mkInput "CONFIG abc") []
      (by decide)).2.1 "CONFIG" "abc" (by decide) (by decide) (by decide)⟩

/-- Wire messages distribute over trace concatenation. -/
theorem sends_append (a b : List Ev) : sends (a ++ b) = sends a ++ sends b :=
  List.filterMap_append a b _

/-- The wire messages of the output-forwarding segment of `run_with_config`:
one newline-terminated message per output line. -/
theorem sends_stream (lines : List String) :
    sends ((lines.map (fun l =>
        [Ev.logMsg ("APP: " ++ rstripNL l), Ev.send (rstripNL l ++ "\n")])).flatten) =
      lines.map (fun l => rstripNL l ++ "\n") := by
  induction lines with
  | nil => rfl
  | cons l t ih =>
    simp only [List.map_cons, List.flatten_cons, sends_append, ih]
    rfl

/-- Distinct first characters make distinct strings. -/
theorem string_ne_of_head (s t : String) (h : s.data.head? ≠ t.data.head?) : s ≠ t :=
  fun he => h (by rw [he])

/-- C8: for a RUN with an active config whose entry point exists — if the
spawn fails, the only wire message is `ERR_RUN` with the failure detail, and
`RUNNING` is never emitted; if the spawn succeeds, the wire messages are
exactly `RUNNING`, then each line of the subprocess's combined output as its
own newline-terminated message, then `EXIT` with the exit code. -/
theorem C8_run_stream (cfg : ConfigR) :
    (∀ detail : String,
      sends (run_with_config cfg true (.fail detail)) =
          ["ERR_RUN " ++ detail ++ "\n"] ∧
        "RUNNING\n" ∉ sends (run_with_config cfg true (.fail detail))) ∧
    (∀ (lines : List String) (code : Int), "" ∉ lines →
      sends (run_with_config cfg true (.ok lines code)) =
        "RUNNING\n" :: lines.map (fun l => rstripNL l ++ "\n") ++
          ["EXIT " ++ toString code ++ "\n"]) := by
  constructor
  · intro detail
    refine ⟨rfl, ?_⟩
    intro hmem
    rw [show sends (run_with_config cfg true (.fail detail)) =
        ["ERR_RUN " ++ detail ++ "\n"] from rfl, List.mem_singleton] at hmem
    refine string_ne_of_head _ _ ?_ hmem
    rw [String.data_append, String.data_append]
    have e1 : "RUNNING\n".data = ['R', 'U', 'N', 'N', 'I', 'N', 'G', '\n'] := rfl
    have e2 : "ERR_RUN ".data = ['E', 'R', 'R', '_', 'R', 'U', 'N', ' '] := rfl
    rw [e1, e2]
    simp
  · intro lines code h
    have hf : lines.filter (fun l => l ≠ "") = lines := by
      rw [List.filter_eq_self]
      intro a ha
      simp only [ne_eq, decide_not, Bool.not_eq_eq_eq_not, Bool.not_true,
        decide_eq_false_iff_not]
      intro he
      exact h (he ▸ ha)
    show sends
        ([Ev.logMsg _, Ev.spawnProc _, Ev.send "RUNNING\n"] ++
          ((lines.filter (fun l => l ≠ "")).map (fun l =>
            [Ev.logMsg ("APP: " ++ rstripNL l), Ev.send (rstripNL l ++ "\n")])).flatten ++
          [Ev.logMsg _, Ev.send ("EXIT " ++ toString code ++ "\n")]) = _
    rw [hf, sends_append, sends_append, sends_stream]
    rfl

/-- Witness for C8: a process printing one line and exiting with code 3 yields
exactly `RUNNING`, the line, and `EXIT 3`; a failed spawn yields only
`ERR_RUN boom`. -/
theorem C8_run_stream_witness :
    sends (run_with_config scenarioCfg true (.ok ["boot\n"] 3)) =
        "RUNNING\n" :: ["boot\n"].map (fun l => rstripNL l ++ "\n") ++
          ["EXIT " ++ toString (3 : Int) ++ "\n"] ∧
      sends (run_with_config scenarioCfg true (.fail "boom")) =
        ["ERR_RUN " ++ "boom" ++ "\n"] :=
  ⟨(C8_run_stream scenarioCfg).2 ["boot\n"] 3 (by decide),
   ((C8_run_stream scenarioCfg).1 "boom").1⟩


/-- A normalized absolute path is never the empty string. -/
theorem normAbs_ne_empty (p : String) : ¬normAbs p = "" := by
  unfold normAbs
  intro h
  have h2 := congrArg String.data h
  rw [String.data_append] at h2
  have e : "/".data = ['/'] := rfl
  rw [e] at h2
  simp at h2

/-- `os.path.abspath` never returns the empty string. -/
theorem os_path_abspath_ne_empty (cwd p : String) : ¬os_path_abspath cwd p = "" := by
  unfold os_path_abspath
  split_ifs <;> exact normAbs_ne_empty _

/-- A path lies under itself. -/
theorem pathUnder_refl (a : String) : pathUnder a a = true := by
  simp [pathUnder]

/-- C9: extraction fully replaces the deploy directory. On reported success
the resolved deploy directory holds exactly the archive members, every
directory strictly below it is gone, and nothing outside it changed — so no
file present before extraction and absent from the archive survives. When the
resolved deploy path is a filesystem root (or the target or its resolution is
empty), the agent refuses: it reports failure and the filesystem is unchanged.
Hypotheses: the root directory exists, and directories strictly below a
non-existing directory do not exist. -/
theorem C9_full_replacement (cwd : String) (archive : List String) (target : String)
    (fs : FS) (hroot : (fs "/").isSome = true)
    (hsub : ∀ p : String, pathUnder p (os_path_abspath cwd target) = true →
      p ≠ os_path_abspath cwd target → fs (os_path_abspath cwd target) = none →
      fs p = none) :
    ((os_path_abspath cwd target = "/" ∨ os_path_abspath cwd target = "" ∨ target = "") →
      (extract_archive_to cwd archive target fs).2 = fs ∧
        (extract_archive_to cwd archive target fs).1.1 = false) ∧
    ((extract_archive_to cwd archive target fs).1.1 = true →
      (extract_archive_to cwd archive target fs).2 (os_path_abspath cwd target) =
          some archive ∧
        (∀ p : String, pathUnder p (os_path_abspath cwd target) = true →
          p ≠ os_path_abspath cwd target →
          (extract_archive_to cwd archive target fs).2 p = none) ∧
        (∀ p : String, pathUnder p (os_path_abspath cwd target) = false →
          (extract_archive_to cwd archive target fs).2 p = fs p)) := by
  by_cases hex : fs_exists cwd fs target = true
  · by_cases hd : os_path_abspath cwd target = "/" ∨ os_path_abspath cwd target = ""
    · have e : extract_archive_to cwd archive target fs =
          ((false, some "DANGEROUS_PATH"), fs) := by
        simp [extract_archive_to, hex, hd]
      rw [e]
      exact ⟨fun _ => ⟨rfl, rfl⟩, fun hok => Bool.noConfusion hok⟩
    · have e : extract_archive_to cwd archive target fs =
          ((true, none),
            fun p => if p = os_path_abspath cwd target then some archive
              else if pathUnder p (os_path_abspath cwd target) then none else fs p) := by
        simp [extract_archive_to, hex, hd]
      rw [e]
      constructor
      · intro hcase
        exfalso
        rcases hcase with hc | hc | hc
        · exact hd (Or.inl hc)
        · exact os_path_abspath_ne_empty cwd target hc
        · rw [hc] at hex
          simp [fs_exists] at hex
      · intro _
        refine ⟨by simp, ?_, ?_⟩
        · intro p hpu hpne
          simp [hpne, hpu]
        · intro p hpu
          have hpne : p ≠ os_path_abspath cwd target := by
            intro he
            rw [he, pathUnder_refl] at hpu
            cases hpu
          simp [hpne, hpu]
  · have hx : fs_exists cwd fs target = false := by
      cases hfe : fs_exists cwd fs target
      · rfl
      · exact absurd hfe hex
    by_cases ht : target = ""
    · subst ht
      have e : extract_archive_to cwd archive "" fs =
          ((false, some "FileNotFoundError"), fs) := by
        simp [extract_archive_to, hx]
      rw [e]
      exact ⟨fun _ => ⟨rfl, rfl⟩, fun hok => Bool.noConfusion hok⟩
    · have hA : fs (os_path_abspath cwd target) = none := by
        by_cases hs : (fs (os_path_abspath cwd target)).isSome = true
        · exfalso
          apply hex
          unfold fs_exists
          rw [hs]
          simp [ht]
        · exact Option.not_isSome_iff_eq_none.mp (by simpa using hs)
      have e : extract_archive_to cwd archive target fs =
          ((true, none),
            fun p => if p = os_path_abspath cwd target then some archive else fs p) := by
        simp [extract_archive_to, hx, ht]
      rw [e]
      constructor
      · intro hcase
        exfalso
        rcases hcase with hc | hc | hc
        · rw [hc] at hA
          rw [hA] at hroot
          simp at hroot
        · exact os_path_abspath_ne_empty cwd target hc
        · exact ht hc
      · intro _
        refine ⟨by simp, ?_, ?_⟩
        · intro p hpu hpne
          simp only [if_neg hpne]
          exact hsub p hpu hpne hA
        · intro p hpu
          have hpne : p ≠ os_path_abspath cwd target := by
            intro he
            rw [he, pathUnder_refl] at hpu
            cases hpu
          simp [hpne]

/-- A small concrete filesystem: the root exists and the deploy directory
`/home/pi/app` holds one stale file. -/
def fsTest : FS := fun p =>
  if p = "/" then some []
  else if p = "/home/pi/app" then some ["old.txt"] else none

/-- Witness for C9: extracting `a.py` into the existing `/home/pi/app`
replaces its contents with exactly the archive; extracting into `/` is
refused and leaves the filesystem unchanged. -/
theorem C9_full_replacement_witness :
    (extract_archive_to "/home/pi" ["a.py"] "/home/pi/app" fsTest).2
        (os_path_abspath "/home/pi" "/home/pi/app") = some ["a.py"] ∧
      (extract_archive_to "/home/pi" ["a.py"] "/" fsTest).2 = fsTest :=
  ⟨((C9_full_replacement "/home/pi" ["a.py"] "/home/pi/app" fsTest (by decide)
      (fun p h1 h2 h3 => absurd h3 (by decide))).2 (by decide)).1,
   ((C9_full_replacement "/home/pi" ["a.py"] "/" fsTest (by decide)
      (fun p h1 h2 h3 => absurd h3 (by decide))).1 (Or.inl (by decide))).1⟩

/-- Events an iteration of `read_exact` may emit: archive writes and
`PROGRESS` wire lines only. -/
def progressEvOk : Ev → Bool
  | .writeArchive _ => true
  | .send m => pyStartsWith m "PROGRESS "
  | _ => false

/-- A `PROGRESS` line starts with `PROGRESS `. -/
theorem progress_msg_ok (x y : String) :
    pyStartsWith ("PROGRESS " ++ x ++ y) "PROGRESS " = true := by
  apply pyStartsWith_of_data _ _ (x.data ++ y.data)
  rw [String.data_append, String.data_append, List.append_assoc]

/-- Every event the `read_exact` loop adds to its trace is an archive write or
a `PROGRESS` line. -/
theorem read_exact_go_evs (n : Nat) :
    ∀ (cs : List (List Nat)) (got last : Nat) (bytes reports : List Nat) (evs : List Ev),
      (∀ e ∈ evs, progressEvOk e = true) →
      ∀ e ∈ (read_exact_go n cs got last bytes reports evs).2.2.2,
        progressEvOk e = true := by
  intro cs
  induction cs with
  | nil =>
    intro got last bytes reports evs h e he
    simp only [read_exact_go] at he
    exact h e (List.mem_reverse.mp he)
  | cons c cs ih =>
    intro got last bytes reports evs h e he
    by_cases hng : n ≤ got
    · simp only [read_exact_go, if_pos hng] at he
      exact h e (List.mem_reverse.mp he)
    · by_cases hcz : (c.take (min 16384 (n - got))).length = 0
      · simp only [read_exact_go, if_neg hng, if_pos hcz] at he
        exact ih got last bytes reports evs h e he
      · by_cases hpi :
            PROGRESS_INTERVAL ≤ got + (c.take (min 16384 (n - got))).length - last
        · simp only [read_exact_go, if_neg hng, if_neg hcz, if_pos hpi] at he
          refine ih _ _ _ _ _ ?_ e he
          intro e' he'
          simp only [List.mem_cons] at he'
          rcases he' with he' | he' | he'
          · rw [he']
            exact progress_msg_ok _ _
          · rw [he']
            rfl
          · exact h e' he'
        · simp only [read_exact_go, if_neg hng, if_neg hcz, if_neg hpi] at he
          refine ih _ _ _ _ _ ?_ e he
          intro e' he'
          simp only [List.mem_cons] at he'
          rcases he' with he' | he'
          · rw [he']
            rfl
          · exact h e' he'

/-- An `ERR_CHECKSUM` line never passes the `PROGRESS` check. -/
theorem err_checksum_not_progress (s : String) :
    pyStartsWith ("ERR_CHECKSUM " ++ s) "PROGRESS " = false := by
  unfold pyStartsWith
  have e1 : "PROGRESS ".toList = 'P' :: ['R', 'O', 'G', 'R', 'E', 'S', 'S', ' '] := rfl
  have e2 : ("ERR_CHECKSUM " ++ s).toList =
      'E' :: (['R', 'R', '_', 'C', 'H', 'E', 'C', 'K', 'S', 'U', 'M', ' '] ++ s.toList) := by
    show ("ERR_CHECKSUM " ++ s).data = _
    rw [String.data_append]
    rfl
  rw [e1, e2]
  simp [strStarts]

/-- C1: for an UPLOAD handled with an active config, once `read_exact` has
returned having read exactly the declared number of bytes — if the digest of
the received bytes differs from the header digest, the trace contains the
`ERR_CHECKSUM <actual>` reply and the staging-archive deletion, and contains
no extraction and no `DONE`; if the digests agree, the trace is some prefix
free of extraction events followed immediately by the `DONE` reply and then
the extraction into the deploy directory — so `DONE` is sent before
extraction begins — with no archive deletion and no `ERR_CHECKSUM` reply. -/
theorem C1_upload_checksum (sha : List Nat → String) (cfg : ConfigR)
    (header c0 sizeS expected name : String) (z : Int) (chunks : List (List Nat))
    (extractErr : Option String)
    (hsplit : pySplitStr 3 header = [c0, sizeS, expected, name])
    (hz : pyInt sizeS = some z)
    (_hgot : (read_exact_run z.toNat chunks).1 = z.toNat) :
    (sha (read_exact_run z.toNat chunks).2.1 ≠ expected →
      Ev.send ("ERR_CHECKSUM " ++ sha (read_exact_run z.toNat chunks).2.1 ++ "\n") ∈
          handleUpload sha cfg header chunks extractErr ∧
        Ev.removeArchive ∈ handleUpload sha cfg header chunks extractErr ∧
        (∀ d : String, Ev.extractTo d ∉ handleUpload sha cfg header chunks extractErr) ∧
        Ev.send "DONE\n" ∉ handleUpload sha cfg header chunks extractErr) ∧
    (sha (read_exact_run z.toNat chunks).2.1 = expected →
      (∃ pre post : List Ev,
        handleUpload sha cfg header chunks extractErr =
          pre ++ Ev.send "DONE\n" ::
            Ev.extractTo (cfg.directory.getD DEFAULT_APP_DIR) :: post ∧
          (∀ d : String, Ev.extractTo d ∉ pre)) ∧
        Ev.removeArchive ∉ handleUpload sha cfg header chunks extractErr ∧
        (∀ s : String, Ev.send ("ERR_CHECKSUM " ++ s) ∉
          handleUpload sha cfg header chunks extractErr)) := by
  have hrevs : ∀ e ∈ (read_exact_run z.toNat chunks).2.2.2, progressEvOk e = true := by
    intro e he
    exact read_exact_go_evs z.toNat chunks 0 0 [] [] []
      (fun e' he' => absurd he' (List.not_mem_nil e')) e he
  constructor
  · intro hne
    refine ⟨?_, ?_, ?_, ?_⟩
    · simp only [handleUpload, hsplit, hz]
      rw [if_pos hne]
      simp
    · simp only [handleUpload, hsplit, hz]
      rw [if_pos hne]
      simp
    · intro d hmem
      simp only [handleUpload, hsplit, hz] at hmem
      rw [if_pos hne] at hmem
      simp at hmem
      exact Bool.noConfusion (hrevs _ hmem)
    · intro hmem
      simp only [handleUpload, hsplit, hz] at hmem
      rw [if_pos hne] at hmem
      simp at hmem
      rcases hmem with hmem | hmem
      · exact absurd (hrevs _ hmem) (by decide)
      · have hE : ("ERR_CHECKSUM " ++ sha (read_exact_run z.toNat chunks).2.1 ++
            "\n").data.head? = some 'E' := rfl
        have hD : ("DONE\n" : String).data.head? = some 'D' := rfl
        exact string_ne_of_head _ _ (by rw [hD, hE]; decide) hmem
  · intro heq
    have hnef : ¬sha (read_exact_run z.toNat chunks).2.1 ≠ expected := fun hh => hh heq
    refine ⟨?_, ?_, ?_⟩
    · simp only [handleUpload, hsplit, hz]
      rw [if_neg hnef]
      rcases extractErr with _ | ex
      · refine ⟨_, _, rfl, ?_⟩
        intro d hmem
        simp at hmem
        exact Bool.noConfusion (hrevs _ hmem)
      · refine ⟨_, _, rfl, ?_⟩
        intro d hmem
        simp at hmem
        exact Bool.noConfusion (hrevs _ hmem)
    · intro hmem
      simp only [handleUpload, hsplit, hz] at hmem
      rw [if_neg hnef] at hmem
      rcases extractErr with _ | ex <;> simp at hmem <;>
        exact Bool.noConfusion (hrevs _ hmem)
    · intro s hmem
      simp only [handleUpload, hsplit, hz] at hmem
      rw [if_neg hnef] at hmem
      have hE : ∀ u : String, ("ERR_CHECKSUM " ++ u).data.head? = some 'E' :=
        fun u => rfl
      rcases extractErr with _ | ex <;> simp at hmem <;>
        rcases hmem with hmem | hmem | hmem <;>
        first
          | (have h2 : pyStartsWith ("ERR_CHECKSUM " ++ s) "PROGRESS " = true :=
              hrevs _ hmem
             rw [err_checksum_not_progress s] at h2
             exact Bool.noConfusion h2)
          | (exact string_ne_of_head _ _
              (by rw [hE s, (rfl : ("OK\n" : String).data.head? = some 'O')]; decide) hmem)
          | (exact string_ne_of_head _ _
              (by rw [hE s, (rfl : ("DONE\n" : String).data.head? = some 'D')]; decide)
              hmem)

/-- A digest stand-in for exercising the checksum comparison concretely. -/
def shaT : List Nat → String := fun b => if b = [7] then "aa" else "bb"

/-- Witness for C1: a one-byte upload whose header carries the wrong digest
`xx` deletes the staging archive and extracts nothing; with the matching
digest `aa` the trace is an extraction-free prefix, then `DONE`, then the
extraction. -/
theorem C1_upload_checksum_witness :
    (Ev.removeArchive ∈ handleUpload shaT scenarioCfg "UPLOAD 1 xx a.tar.gz" [[7]] none ∧
      ∀ d : String,
        Ev.extractTo d ∉ handleUpload shaT scenarioCfg "UPLOAD 1 xx a.tar.gz" [[7]] none) ∧
    ∃ pre post : List Ev,
      handleUpload shaT scenarioCfg "UPLOAD 1 aa a.tar.gz" [[7]] none =
        pre ++ Ev.send "DONE\n" ::
          Ev.extractTo (scenarioCfg.directory.getD DEFAULT_APP_DIR) :: post ∧
        (∀ d : String, Ev.extractTo d ∉ pre) :=
  ⟨⟨((C1_upload_checksum shaT scenarioCfg "UPLOAD 1 xx a.tar.gz" "UPLOAD" "1" "xx"
        "a.tar.gz" 1 [[7]] none (by decide) (by decide) (by decide)).1
      (by decide)).2.1,
    ((C1_upload_checksum shaT scenarioCfg "UPLOAD 1 xx a.tar.gz" "UPLOAD" "1" "xx"
        "a.tar.gz" 1 [[7]] none (by decide) (by decide) (by decide)).1
      (by decide)).2.2.1⟩,
   ((C1_upload_checksum shaT scenarioCfg "UPLOAD 1 aa a.tar.gz" "UPLOAD" "1" "aa"
        "a.tar.gz" 1 [[7]] none (by decide) (by decide) (by decide)).2
      (by decide)).1⟩
